import Mathlib

deriving instance DecidableEq for Except

/-!
Verification of `src/gillespie_python_helpers.py` (one-state Gillespie
simulation).

Times, rates and molecule ages are modelled as rationals (`ℚ`).  The
simulation state `sim_arr` (a 1-D NumPy array of molecule ages) is a
`List ℚ`.  The pandas `Series` holding the checkpoint record is a
`List (ℚ × List ℚ)` of (checkpoint time, snapshot) pairs, in insertion
order (the `Series` index is the checkpoint time).

Randomness is injected: `taus` is the stream of values drawn by
`np.random.exponential`, `us` is a stream of uniform-[0,1) values standing
for the `np.random.binomial(n=1, p)` draws (the draw returns 1 exactly when
`u < p`, so that `p = 1` always yields 1 and `p = 0` always yields 0), and
`idxs` is the stream of draws of `np.random.randint(0, size)` (reduced
`% size` so every in-range outcome is representable).

Failure modes of the Python code are made explicit in `SimError`:
`zeroDivisionError` models the Python `ZeroDivisionError` from
`1/(ksynth + decay_prob)` when the total rate is zero; `valueError` models
NumPy `ValueError`s (negative scale passed to `np.random.exponential`,
`p` outside [0,1] passed to `np.random.binomial`, `np.random.randint(0, 0)`
on an empty array); `outOfDraws` is a modelling artifact only: the injected
random streams are finite, and a run that exhausts them returns
`outOfDraws` instead of continuing (the real code draws indefinitely).
A "completed run" is one returning `Except.ok`.
-/

/-- Error outcomes of the Python code, plus the `outOfDraws` modelling
artifact for exhausted injected random streams. -/
inductive SimError where
  | zeroDivisionError : SimError
  | valueError : SimError
  | outOfDraws : SimError
  deriving DecidableEq, Repr

/-- Model of `np.append(l, x)` (line 72): returns a fresh array with `x`
appended. -/
def npAppend (l : List ℚ) (x : ℚ) : List ℚ := l ++ [x]

/-- Model of `np.delete(l, i)` (line 75): returns a fresh array with the
element at position `i` removed. -/
def npDelete (l : List ℚ) (i : ℕ) : List ℚ := l.take i ++ l.drop (i + 1)

/-- Model of `sim_arr + tau` (line 66): element-wise addition of the scalar
`tau`, returning a fresh array. -/
def ageAll (l : List ℚ) (tau : ℚ) : List ℚ := l.map (· + tau)

/-- Model of `np.mean` as used on line 78: `sum / size`; on an empty array
NumPy emits a warning and returns NaN (it does not raise), modelled as
`none`. -/
def npMean (l : List ℚ) : Option ℚ :=
  if l.length = 0 then none else some (l.sum / (l.length : ℚ))

/-- Model of the default `sim_arr=np.empty(shape=(1,))` (line 8):
`np.empty` allocates a length-1 array whose single entry is an arbitrary
uninitialized value `g`; it is NOT an empty array (that would be
`np.empty(shape=(0,))`). -/
def default_sim_arr (g : ℚ) : List ℚ := [g]

/-- Upper bound on the recursion depth of `_recursive_update_output`
(lines 85-93): when `checkpoint_freq > 0` the recursion runs at most
`⌈(t + tau - next_checkpt) / checkpoint_freq⌉` times, which is at most the
numerator of that quotient plus one, so this fuel is never exhausted
(see `recUpdateGo_finishes`).  When `checkpoint_freq ≤ 0` and the guard
holds, the Python recursion does not terminate; the fuelled model stops
instead. -/
def updateFuel (t tau next_checkpt checkpoint_freq : ℚ) : ℕ :=
  ((t + tau - next_checkpt) / checkpoint_freq).num.toNat + 1

/-- Fuelled body of `_recursive_update_output` (lines 85-93): while
`t + tau > next_checkpt`, append to the record a copy of the current
`sim_arr` at index `next_checkpt` (line 88-89: `sim_series.append(
pd.Series([np.copy(sim_arr)], index=[next_checkpt]))`) and advance
`next_checkpt += checkpoint_freq` (line 90). -/
def recUpdateGo : ℕ → List (ℚ × List ℚ) → List ℚ → ℚ → ℚ → ℚ → ℚ →
    List (ℚ × List ℚ) × ℚ
  | 0, sim_series, _, _, _, next_checkpt, _ => (sim_series, next_checkpt)
  | fuel + 1, sim_series, sim_arr, t, tau, next_checkpt, checkpoint_freq =>
    if t + tau > next_checkpt then
      recUpdateGo fuel (sim_series ++ [(next_checkpt, sim_arr)]) sim_arr t tau
        (next_checkpt + checkpoint_freq) checkpoint_freq
    else (sim_series, next_checkpt)

/-- `_recursive_update_output` (lines 85-93) of the source, with the
recursion depth bounded by `updateFuel` (sufficient whenever
`checkpoint_freq > 0`, i.e. whenever the source recursion terminates). -/
def _recursive_update_output (sim_series : List (ℚ × List ℚ)) (sim_arr : List ℚ)
    (t tau next_checkpt checkpoint_freq : ℚ) : List (ℚ × List ℚ) × ℚ :=
  recUpdateGo (updateFuel t tau next_checkpt checkpoint_freq) sim_series sim_arr
    t tau next_checkpt checkpoint_freq

/-- The `while next_checkpt < t_final` loop of `one_state_simulation`
(lines 58-76), one iteration per entry of `taus`:

* line 59: `decay_prob = sim_arr.size * kdecay`;
* line 60: `tau = np.random.exponential(1/(ksynth + decay_prob))` —
  `1/0` raises `ZeroDivisionError`; a negative scale makes
  `np.random.exponential` raise `ValueError`; otherwise the drawn value
  is the head of `taus`;
* lines 64-65: `_recursive_update_output` catches up checkpoint emission;
* line 66: `sim_arr = sim_arr + tau`;
* line 70: `event = np.random.binomial(n=1, p=ksynth/(ksynth+decay_prob))`
  — `p ∉ [0,1]` raises `ValueError`; the draw is 1 iff `u < p` for the
  head `u` of `us`;
* lines 71-72: birth appends a molecule of age 0;
* lines 73-75: death removes the element at `np.random.randint(0,
  sim_arr.size)` — `randint(0, 0)` (empty array) raises `ValueError`;
* line 76: `t = t + tau`. -/
def simLoop (ksynth kdecay t_final checkpoint_freq : ℚ) :
    List ℚ → List ℚ → List ℕ → List (ℚ × List ℚ) → List ℚ → ℚ → ℚ →
    Except SimError (List (ℚ × List ℚ))
  | taus, us, idxs, sim_series, sim_arr, next_checkpt, t =>
    if next_checkpt < t_final then
      let decay_prob : ℚ := (sim_arr.length : ℚ) * kdecay
      if ksynth + decay_prob = 0 then .error .zeroDivisionError
      else if ksynth + decay_prob < 0 then .error .valueError
      else
        match taus with
        | [] => .error .outOfDraws
        | tau :: taus' =>
          let upd := _recursive_update_output sim_series sim_arr t tau
            next_checkpt checkpoint_freq
          let aged := ageAll sim_arr tau
          let p := ksynth / (ksynth + decay_prob)
          if p < 0 ∨ 1 < p then .error .valueError
          else
            match us with
            | [] => .error .outOfDraws
            | u :: us' =>
              if u < p then
                simLoop ksynth kdecay t_final checkpoint_freq taus' us' idxs
                  upd.1 (npAppend aged 0) upd.2 (t + tau)
              else if aged.length = 0 then .error .valueError
              else
                match idxs with
                | [] => .error .outOfDraws
                | i :: idxs' =>
                  simLoop ksynth kdecay t_final checkpoint_freq taus' us' idxs'
                    upd.1 (npDelete aged (i % aged.length)) upd.2 (t + tau)
    else .ok sim_series

/-- `one_state_simulation` (lines 7-82): record the t=0 snapshot
(line 55: `sim_series = pd.Series([np.copy(sim_arr)], index=[0])`),
initialize `next_checkpt = checkpoint_freq` (line 56) and `t = 0`
(line 57), then run the event loop.  Returns the checkpoint record
(`sim_series`); the summary outputs of lines 77-78 are `ct_checkpoints`
and `age_checkpoints` below. -/
def one_state_simulation (ksynth kdecay : ℚ) (sim_arr : List ℚ)
    (t_final checkpoint_freq : ℚ) (taus us : List ℚ) (idxs : List ℕ) :
    Except SimError (List (ℚ × List ℚ)) :=
  simLoop ksynth kdecay t_final checkpoint_freq taus us idxs
    [(0, sim_arr)] sim_arr checkpoint_freq 0

/-- Line 77: `ct_checkpoints = sim_series.apply(np.size).values`. -/
def ct_checkpoints (sim_series : List (ℚ × List ℚ)) : List ℕ :=
  sim_series.map (fun p => p.2.length)

/-- Line 78: `age_checkpoints = sim_series.apply(np.mean).values`. -/
def age_checkpoints (sim_series : List (ℚ × List ℚ)) : List (Option ℚ) :=
  sim_series.map (fun p => npMean p.2)

/-! ### Store-level model

To settle the aliasing / mutation claims, a second embedding of the same
code makes the NumPy heap explicit.  A `Store` holds the contents of every
allocated array; an array value is an index (`ℕ`) into the store.  Every
NumPy operation the source uses (`np.copy` on line 55/88, `sim_arr + tau`
on line 66, `np.append` on line 72, `np.delete` on line 75) returns a fresh
array, so each is modelled as an allocation of a new cell; no operation in
the code writes to an existing cell.  The checkpoint record stores array
references (as `pd.Series` does), so whether later events disturb recorded
snapshots is observable in this model. -/

/-- The NumPy heap: cell `a` holds the contents of array number `a`. -/
structure Store where
  cells : List (List ℚ)
  deriving DecidableEq, Repr

/-- Read the contents of array `a` (out-of-range reads, which never occur
on the code paths, default to `[]`). -/
def Store.read (st : Store) (a : ℕ) : List ℚ :=
  st.cells.getD a []

/-- Allocate a fresh array holding `v`, returning the new store and the
new array's reference. -/
def Store.alloc (st : Store) (v : List ℚ) : Store × ℕ :=
  (⟨st.cells ++ [v]⟩, st.cells.length)

/-- `np.copy(a)`: allocate a fresh array with the same contents. -/
def np_copy (st : Store) (a : ℕ) : Store × ℕ :=
  st.alloc (st.read a)

/-- `a + tau` on a NumPy array: allocate a fresh aged array (line 66). -/
def np_add_scalar (st : Store) (a : ℕ) (tau : ℚ) : Store × ℕ :=
  st.alloc ((st.read a).map (· + tau))

/-- `np.append(a, 0)`: allocate a fresh array with `0` appended (line 72). -/
def np_append0 (st : Store) (a : ℕ) : Store × ℕ :=
  st.alloc (st.read a ++ [0])

/-- `np.delete(a, i)`: allocate a fresh array without position `i`
(line 75). -/
def np_delete (st : Store) (a : ℕ) (i : ℕ) : Store × ℕ :=
  st.alloc ((st.read a).take i ++ (st.read a).drop (i + 1))

/-- Result of a store-level run: final store plus either the checkpoint
record (as time/reference pairs) or the error raised. -/
inductive SResultS where
  | ok (st : Store) (record : List (ℚ × ℕ)) : SResultS
  | err (st : Store) (e : SimError) : SResultS
  deriving DecidableEq, Repr

/-- The final store, whether the run completed or raised. -/
def SResultS.store : SResultS → Store
  | .ok st _ => st
  | .err st _ => st

/-- Store-level `_recursive_update_output` (lines 85-93): each appended
record entry references a fresh `np.copy` of the live array (line 88). -/
def recUpdateGoS : ℕ → Store → List (ℚ × ℕ) → ℕ → ℚ → ℚ → ℚ → ℚ →
    Store × List (ℚ × ℕ) × ℚ
  | 0, st, sim_series, _, _, _, next_checkpt, _ => (st, sim_series, next_checkpt)
  | fuel + 1, st, sim_series, sim_arr, t, tau, next_checkpt, checkpoint_freq =>
    if t + tau > next_checkpt then
      recUpdateGoS fuel (np_copy st sim_arr).1
        (sim_series ++ [(next_checkpt, (np_copy st sim_arr).2)]) sim_arr t tau
        (next_checkpt + checkpoint_freq) checkpoint_freq
    else (st, sim_series, next_checkpt)

/-- Store-level event loop, mirroring `simLoop` branch for branch. -/
def simLoopS (ksynth kdecay t_final checkpoint_freq : ℚ) :
    List ℚ → List ℚ → List ℕ → Store → List (ℚ × ℕ) → ℕ → ℚ → ℚ → SResultS
  | taus, us, idxs, st, sim_series, sim_arr, next_checkpt, t =>
    if next_checkpt < t_final then
      let decay_prob : ℚ := ((st.read sim_arr).length : ℚ) * kdecay
      if ksynth + decay_prob = 0 then .err st .zeroDivisionError
      else if ksynth + decay_prob < 0 then .err st .valueError
      else
        match taus with
        | [] => .err st .outOfDraws
        | tau :: taus' =>
          let upd := recUpdateGoS (updateFuel t tau next_checkpt checkpoint_freq)
            st sim_series sim_arr t tau next_checkpt checkpoint_freq
          let aged := np_add_scalar upd.1 sim_arr tau
          let p := ksynth / (ksynth + decay_prob)
          if p < 0 ∨ 1 < p then .err aged.1 .valueError
          else
            match us with
            | [] => .err aged.1 .outOfDraws
            | u :: us' =>
              if u < p then
                simLoopS ksynth kdecay t_final checkpoint_freq taus' us' idxs
                  (np_append0 aged.1 aged.2).1 upd.2.1
                  (np_append0 aged.1 aged.2).2 upd.2.2 (t + tau)
              else if (aged.1.read aged.2).length = 0 then .err aged.1 .valueError
              else
                match idxs with
                | [] => .err aged.1 .outOfDraws
                | i :: idxs' =>
                  simLoopS ksynth kdecay t_final checkpoint_freq taus' us' idxs'
                    (np_delete aged.1 aged.2 (i % (aged.1.read aged.2).length)).1
                    upd.2.1
                    (np_delete aged.1 aged.2 (i % (aged.1.read aged.2).length)).2
                    upd.2.2 (t + tau)
    else .ok st sim_series

/-- Store-level `one_state_simulation`: the caller's array lives in `st0`
at reference `a0`; line 55 records a `np.copy` of it at time 0, and the
loop starts on the caller's array itself. -/
def one_state_simulationS (ksynth kdecay : ℚ) (st0 : Store) (a0 : ℕ)
    (t_final checkpoint_freq : ℚ) (taus us : List ℚ) (idxs : List ℕ) :
    SResultS :=
  simLoopS ksynth kdecay t_final checkpoint_freq taus us idxs
    (np_copy st0 a0).1 [(0, (np_copy st0 a0).2)] a0 checkpoint_freq 0

/-- Dereference a record's snapshots in a given store. -/
def snapshotsOf (st : Store) (record : List (ℚ × ℕ)) : List (ℚ × List ℚ) :=
  record.map (fun p => (p.1, st.read p.2))

/-! ### Lemmas about `_recursive_update_output` -/

/-- Reindexing helper: prepending the entry at `nc` to entries at
`nc + f, nc + 2f, …` gives entries at `nc, nc + f, …`. -/
theorem range_shift_cons (nc f : ℚ) (arr : List ℚ) (k : ℕ) :
    (nc, arr) :: (List.range k).map (fun i : ℕ => (nc + f + (i : ℚ) * f, arr))
      = (List.range (k + 1)).map (fun i : ℕ => (nc + (i : ℚ) * f, arr)) := by
  rw [List.range_succ_eq_map, List.map_cons, List.map_map]
  simp only [Nat.cast_zero, zero_mul, add_zero, List.cons.injEq, true_and]
  congr 1
  funext i
  simp only [Function.comp_apply, Prod.mk.injEq, and_true]
  push_cast
  ring

/-- The recursive catch-up appends one entry per crossed checkpoint, every
entry carrying the same snapshot `sim_arr`, and advances `next_checkpt` by
the corresponding number of steps of `checkpoint_freq`. -/
theorem recUpdateGo_spec (fuel : ℕ) (sim_series : List (ℚ × List ℚ))
    (sim_arr : List ℚ) (t tau next_checkpt checkpoint_freq : ℚ) :
    ∃ k : ℕ,
      recUpdateGo fuel sim_series sim_arr t tau next_checkpt checkpoint_freq
        = (sim_series ++ (List.range k).map
            (fun i : ℕ => (next_checkpt + (i : ℚ) * checkpoint_freq, sim_arr)),
           next_checkpt + (k : ℚ) * checkpoint_freq) := by
  induction fuel generalizing sim_series next_checkpt with
  | zero => exact ⟨0, by simp [recUpdateGo]⟩
  | succ fuel ih =>
    by_cases h : t + tau > next_checkpt
    · obtain ⟨k, hk⟩ :=
        ih (sim_series ++ [(next_checkpt, sim_arr)]) (next_checkpt + checkpoint_freq)
      refine ⟨k + 1, ?_⟩
      rw [recUpdateGo, if_pos h, hk]
      simp only [Prod.mk.injEq]
      constructor
      · rw [List.append_assoc, List.singleton_append, range_shift_cons]
      · push_cast
        ring
    · exact ⟨0, by simp [recUpdateGo, if_neg h]⟩

/-- Any rational is at most its numerator's `toNat`, plus one. -/
theorem rat_le_num_toNat_succ (x : ℚ) : x ≤ (x.num.toNat : ℚ) + 1 := by
  rcases le_or_lt 0 x.num with h | h
  · have hden : (1 : ℚ) ≤ (x.den : ℚ) := by
      exact_mod_cast x.pos
    have hx : x ≤ (x.num : ℚ) := by
      conv_lhs => rw [← Rat.num_div_den x]
      exact div_le_self (by exact_mod_cast h) hden
    have : ((x.num.toNat : ℤ) : ℚ) = (x.num : ℚ) := by
      rw [Int.toNat_of_nonneg h]
    push_cast at this
    linarith
  · have hx : x < 0 := by
      by_contra hc
      push_neg at hc
      exact absurd (Rat.num_nonneg.mpr hc) (not_le.mpr h)
    have h0 : (0 : ℚ) ≤ (x.num.toNat : ℚ) := by positivity
    linarith

/-- With `checkpoint_freq > 0` and enough fuel, the catch-up really runs to
completion: at exit the guard `t + tau > next_checkpt` is false. -/
theorem recUpdateGo_finishes (fuel : ℕ) (sim_series : List (ℚ × List ℚ))
    (sim_arr : List ℚ) (t tau next_checkpt checkpoint_freq : ℚ)
    (hfuel : t + tau - next_checkpt ≤ (fuel : ℚ) * checkpoint_freq) :
    t + tau ≤
      (recUpdateGo fuel sim_series sim_arr t tau next_checkpt checkpoint_freq).2 := by
  induction fuel generalizing sim_series next_checkpt with
  | zero =>
    simp only [recUpdateGo]
    push_cast at hfuel
    linarith
  | succ fuel ih =>
    by_cases h : t + tau > next_checkpt
    · rw [recUpdateGo, if_pos h]
      apply ih
      push_cast at hfuel ⊢
      linarith
    · rw [recUpdateGo, if_neg h]
      exact not_lt.mp h

/-- `updateFuel` really is enough fuel whenever `checkpoint_freq > 0`, so
the fuelled model never stops early where the Python recursion would have
continued: at the exit of `_recursive_update_output` the guard of line 87
is false. -/
theorem update_output_finishes (sim_series : List (ℚ × List ℚ))
    (sim_arr : List ℚ) (t tau next_checkpt checkpoint_freq : ℚ)
    (hf : 0 < checkpoint_freq) :
    t + tau ≤
      (_recursive_update_output sim_series sim_arr t tau next_checkpt
        checkpoint_freq).2 := by
  apply recUpdateGo_finishes
  rw [updateFuel]
  set x := (t + tau - next_checkpt) / checkpoint_freq with hx
  have h1 : t + tau - next_checkpt = x * checkpoint_freq := by
    rw [hx, div_mul_cancel₀]
    exact ne_of_gt hf
  have h2 : x ≤ (x.num.toNat : ℚ) + 1 := rat_le_num_toNat_succ x
  rw [h1]
  push_cast
  exact mul_le_mul_of_nonneg_right h2 (le_of_lt hf)

/-- Closed form of `_recursive_update_output`: it appends `k` entries, one
per checkpoint crossed by `t + tau`, each carrying the unchanged snapshot
`sim_arr`. -/
theorem update_output_spec (sim_series : List (ℚ × List ℚ)) (sim_arr : List ℚ)
    (t tau next_checkpt checkpoint_freq : ℚ) :
    ∃ k : ℕ,
      _recursive_update_output sim_series sim_arr t tau next_checkpt
          checkpoint_freq
        = (sim_series ++ (List.range k).map
            (fun i : ℕ => (next_checkpt + (i : ℚ) * checkpoint_freq, sim_arr)),
           next_checkpt + (k : ℚ) * checkpoint_freq) :=
  recUpdateGo_spec _ _ _ _ _ _ _

/-! ### Lemmas about the event loop -/

/-- When the injected `taus` stream is empty, the loop either exits
normally (guard false) or reports an error. -/
theorem simLoop_nil (ksynth kdecay t_final checkpoint_freq : ℚ)
    (us : List ℚ) (idxs : List ℕ) (sim_series : List (ℚ × List ℚ))
    (sim_arr : List ℚ) (next_checkpt t : ℚ) :
    (¬ next_checkpt < t_final ∧
      simLoop ksynth kdecay t_final checkpoint_freq [] us idxs sim_series
        sim_arr next_checkpt t = .ok sim_series)
    ∨ (∃ e, simLoop ksynth kdecay t_final checkpoint_freq [] us idxs sim_series
        sim_arr next_checkpt t = .error e) := by
  by_cases h1 : next_checkpt < t_final
  · right
    rw [simLoop]
    by_cases h2 : ksynth + (sim_arr.length : ℚ) * kdecay = 0
    · exact ⟨.zeroDivisionError, by simp [h1, h2]⟩
    · by_cases h3 : ksynth + (sim_arr.length : ℚ) * kdecay < 0
      · exact ⟨.valueError, by simp [h1, h2, h3]⟩
      · exact ⟨.outOfDraws, by simp [h1, h2, h3]⟩
  · left
    exact ⟨h1, by rw [simLoop]; simp [h1]⟩

/-- One unfolding of the loop on a nonempty `taus` stream: the loop exits,
errors, or recurses on the tail streams with the record and `next_checkpt`
produced by `_recursive_update_output`. -/
theorem simLoop_cons_cases (ksynth kdecay t_final checkpoint_freq : ℚ)
    (tau : ℚ) (taus' us : List ℚ) (idxs : List ℕ)
    (sim_series : List (ℚ × List ℚ)) (sim_arr : List ℚ) (next_checkpt t : ℚ) :
    (¬ next_checkpt < t_final ∧
      simLoop ksynth kdecay t_final checkpoint_freq (tau :: taus') us idxs
        sim_series sim_arr next_checkpt t = .ok sim_series)
    ∨ (∃ e, simLoop ksynth kdecay t_final checkpoint_freq (tau :: taus') us idxs
        sim_series sim_arr next_checkpt t = .error e)
    ∨ (∃ (us' : List ℚ) (idxs' : List ℕ) (arr' : List ℚ),
        simLoop ksynth kdecay t_final checkpoint_freq (tau :: taus') us idxs
            sim_series sim_arr next_checkpt t
          = simLoop ksynth kdecay t_final checkpoint_freq taus' us' idxs'
              (_recursive_update_output sim_series sim_arr t tau next_checkpt
                checkpoint_freq).1
              arr'
              (_recursive_update_output sim_series sim_arr t tau next_checkpt
                checkpoint_freq).2
              (t + tau)) := by
  by_cases h1 : next_checkpt < t_final
  · by_cases h2 : ksynth + (sim_arr.length : ℚ) * kdecay = 0
    · exact Or.inr (Or.inl ⟨.zeroDivisionError, by rw [simLoop]; simp [h1, h2]⟩)
    · by_cases h3 : ksynth + (sim_arr.length : ℚ) * kdecay < 0
      · exact Or.inr (Or.inl ⟨.valueError, by rw [simLoop]; simp [h1, h2, h3]⟩)
      · by_cases h4 : ksynth / (ksynth + (sim_arr.length : ℚ) * kdecay) < 0
          ∨ 1 < ksynth / (ksynth + (sim_arr.length : ℚ) * kdecay)
        · exact Or.inr (Or.inl ⟨.valueError, by rw [simLoop]; simp [h1, h2, h3, h4]⟩)
        · match us with
          | [] => exact Or.inr (Or.inl ⟨.outOfDraws, by rw [simLoop]; simp [h1, h2, h3, h4]⟩)
          | u :: us' =>
            by_cases h5 : u < ksynth / (ksynth + (sim_arr.length : ℚ) * kdecay)
            · refine Or.inr (Or.inr ⟨us', idxs, npAppend (ageAll sim_arr tau) 0, ?_⟩)
              rw [simLoop]
              simp [h1, h2, h3, h4, h5]
            · by_cases h6 : (ageAll sim_arr tau).length = 0
              · exact Or.inr (Or.inl ⟨.valueError, by rw [simLoop]; simp [h1, h2, h3, h4, h5, h6]⟩)
              · match idxs with
                | [] =>
                  exact Or.inr (Or.inl ⟨.outOfDraws, by rw [simLoop]; simp [h1, h2, h3, h4, h5, h6]⟩)
                | i :: idxs' =>
                  refine Or.inr (Or.inr ⟨us', idxs',
                    npDelete (ageAll sim_arr tau) (i % (ageAll sim_arr tau).length), ?_⟩)
                  rw [simLoop]
                  simp [h1, h2, h3, h4, h5, h6]
  · left
    exact ⟨h1, by rw [simLoop]; simp [h1]⟩

/-- The loop only ever appends to the checkpoint record: a completed run
returns the incoming record followed by new entries. -/
theorem simLoop_record_extends (ksynth kdecay t_final checkpoint_freq : ℚ)
    (taus : List ℚ) :
    ∀ (us : List ℚ) (idxs : List ℕ) (sim_series : List (ℚ × List ℚ))
      (sim_arr : List ℚ) (next_checkpt t : ℚ) (out : List (ℚ × List ℚ)),
      simLoop ksynth kdecay t_final checkpoint_freq taus us idxs sim_series
          sim_arr next_checkpt t = .ok out →
      ∃ ext, out = sim_series ++ ext := by
  induction taus with
  | nil =>
    intro us idxs s arr nc t out h
    rcases simLoop_nil ksynth kdecay t_final checkpoint_freq us idxs s arr nc t with
      ⟨_, heq⟩ | ⟨e, heq⟩
    · rw [heq] at h
      exact ⟨[], by simpa using (Except.ok.injEq _ _ ▸ h).symm⟩
    · rw [heq] at h
      exact absurd h (by simp)
  | cons tau taus' ih =>
    intro us idxs s arr nc t out h
    rcases simLoop_cons_cases ksynth kdecay t_final checkpoint_freq tau taus' us
      idxs s arr nc t with ⟨_, heq⟩ | ⟨e, heq⟩ | ⟨us', idxs', arr', heq⟩
    · rw [heq] at h
      exact ⟨[], by simpa using (Except.ok.injEq _ _ ▸ h).symm⟩
    · rw [heq] at h
      exact absurd h (by simp)
    · rw [heq] at h
      obtain ⟨ext2, hext2⟩ := ih _ _ _ _ _ _ _ h
      obtain ⟨k, hk⟩ := update_output_spec s arr t tau nc checkpoint_freq
      refine ⟨(List.range k).map
        (fun i : ℕ => (nc + (i : ℚ) * checkpoint_freq, arr)) ++ ext2, ?_⟩
      rw [hext2, hk]
      simp [List.append_assoc]

/-- Concatenating the first `n` multiples of `f` with `k` further multiples
shifted by `n * f` yields the first `n + k` multiples of `f`. -/
theorem range_append_shift (n k : ℕ) (f : ℚ) :
    (List.range n).map (fun i : ℕ => (i : ℚ) * f)
        ++ (List.range k).map (fun i : ℕ => (n : ℚ) * f + (i : ℚ) * f)
      = (List.range (n + k)).map (fun i : ℕ => (i : ℚ) * f) := by
  rw [List.range_add, List.map_append, List.map_map]
  congr 1
  apply List.map_congr_left
  intro i _
  simp only [Function.comp_apply]
  push_cast
  ring

/-- Loop invariant for checkpoint times: if the incoming record's times are
the first `n` multiples of `checkpoint_freq` and the pending target is
`n * checkpoint_freq`, then a completed run's record times are the first
`m` multiples of `checkpoint_freq` for some `m ≥ n` with
`t_final ≤ m * checkpoint_freq`. -/
theorem simLoop_times_inv (ksynth kdecay t_final checkpoint_freq : ℚ)
    (taus : List ℚ) :
    ∀ (us : List ℚ) (idxs : List ℕ) (sim_series : List (ℚ × List ℚ))
      (sim_arr : List ℚ) (next_checkpt t : ℚ) (n : ℕ) (out : List (ℚ × List ℚ)),
      sim_series.map Prod.fst
          = (List.range n).map (fun i : ℕ => (i : ℚ) * checkpoint_freq) →
      next_checkpt = (n : ℚ) * checkpoint_freq →
      simLoop ksynth kdecay t_final checkpoint_freq taus us idxs sim_series
          sim_arr next_checkpt t = .ok out →
      ∃ m : ℕ, n ≤ m
        ∧ out.map Prod.fst
            = (List.range m).map (fun i : ℕ => (i : ℚ) * checkpoint_freq)
        ∧ t_final ≤ (m : ℚ) * checkpoint_freq := by
  induction taus with
  | nil =>
    intro us idxs s arr nc t n out hmap hnc h
    rcases simLoop_nil ksynth kdecay t_final checkpoint_freq us idxs s arr nc t with
      ⟨hexit, heq⟩ | ⟨e, heq⟩
    · rw [heq] at h
      have hout : out = s := by simpa using (Except.ok.injEq _ _ ▸ h).symm
      exact ⟨n, le_refl n, hout ▸ hmap, by rw [← hnc]; exact not_lt.mp hexit⟩
    · rw [heq] at h
      exact absurd h (by simp)
  | cons tau taus' ih =>
    intro us idxs s arr nc t n out hmap hnc h
    rcases simLoop_cons_cases ksynth kdecay t_final checkpoint_freq tau taus' us
      idxs s arr nc t with ⟨hexit, heq⟩ | ⟨e, heq⟩ | ⟨us', idxs', arr', heq⟩
    · rw [heq] at h
      have hout : out = s := by simpa using (Except.ok.injEq _ _ ▸ h).symm
      exact ⟨n, le_refl n, hout ▸ hmap, by rw [← hnc]; exact not_lt.mp hexit⟩
    · rw [heq] at h
      exact absurd h (by simp)
    · rw [heq] at h
      obtain ⟨k, hk⟩ := update_output_spec s arr t tau nc checkpoint_freq
      have hmap' : (_recursive_update_output s arr t tau nc
            checkpoint_freq).1.map Prod.fst
          = (List.range (n + k)).map (fun i : ℕ => (i : ℚ) * checkpoint_freq) := by
        rw [hk]
        simp only [List.map_append, List.map_map, hmap]
        rw [← range_append_shift n k checkpoint_freq]
        congr 1
        apply List.map_congr_left
        intro i _
        simp [hnc]
      have hnc' : (_recursive_update_output s arr t tau nc checkpoint_freq).2
          = ((n + k : ℕ) : ℚ) * checkpoint_freq := by
        rw [hk, hnc]
        push_cast
        ring
      obtain ⟨m, hm1, hm2, hm3⟩ := ih _ _ _ _ _ _ _ _ hmap' hnc' h
      exact ⟨m, le_trans (Nat.le_add_right n k) hm1, hm2, hm3⟩

/-! ### Lemmas about the store-level model -/

/-- Reading within the original part of an extended store is unchanged. -/
theorem read_of_cells_extends (st st' : Store) (a : ℕ)
    (ha : a < st.cells.length) (h : ∃ ext, st'.cells = st.cells ++ ext) :
    st'.read a = st.read a := by
  obtain ⟨ext, hext⟩ := h
  unfold Store.read
  rw [hext, List.getD_append _ _ _ _ ha]

/-- The store-level catch-up only allocates (never writes existing cells)
and only appends to the record. -/
theorem recUpdateGoS_extends (fuel : ℕ) :
    ∀ (st : Store) (sim_series : List (ℚ × ℕ)) (sim_arr : ℕ)
      (t tau next_checkpt checkpoint_freq : ℚ),
      (∃ ext, (recUpdateGoS fuel st sim_series sim_arr t tau next_checkpt
          checkpoint_freq).1.cells = st.cells ++ ext)
      ∧ (∃ es, (recUpdateGoS fuel st sim_series sim_arr t tau next_checkpt
          checkpoint_freq).2.1 = sim_series ++ es) := by
  induction fuel with
  | zero => exact fun st s a t tau nc f => ⟨⟨[], by simp [recUpdateGoS]⟩,
      ⟨[], by simp [recUpdateGoS]⟩⟩
  | succ fuel ih =>
    intro st s a t tau nc f
    by_cases h : t + tau > nc
    · obtain ⟨⟨ext, hext⟩, ⟨es, hes⟩⟩ :=
        ih (np_copy st a).1 (s ++ [(nc, (np_copy st a).2)]) a t tau (nc + f) f
      constructor
      · refine ⟨st.read a :: ext, ?_⟩
        rw [recUpdateGoS, if_pos h, hext]
        simp [np_copy, Store.alloc]
      · refine ⟨(nc, (np_copy st a).2) :: es, ?_⟩
        rw [recUpdateGoS, if_pos h, hes]
        simp
    · exact ⟨⟨[], by simp [recUpdateGoS, if_neg h]⟩,
        ⟨[], by simp [recUpdateGoS, if_neg h]⟩⟩

/-- When the `taus` stream is empty, the store-level loop exits normally
(returning its store and record untouched) or errors without allocating. -/
theorem simLoopS_nil (ksynth kdecay t_final checkpoint_freq : ℚ)
    (us : List ℚ) (idxs : List ℕ) (st : Store) (sim_series : List (ℚ × ℕ))
    (sim_arr : ℕ) (next_checkpt t : ℚ) :
    (¬ next_checkpt < t_final ∧
      simLoopS ksynth kdecay t_final checkpoint_freq [] us idxs st sim_series
        sim_arr next_checkpt t = .ok st sim_series)
    ∨ (∃ e, simLoopS ksynth kdecay t_final checkpoint_freq [] us idxs st
        sim_series sim_arr next_checkpt t = .err st e) := by
  by_cases h1 : next_checkpt < t_final
  · right
    rw [simLoopS]
    by_cases h2 : ksynth + ((st.read sim_arr).length : ℚ) * kdecay = 0
    · exact ⟨.zeroDivisionError, by simp [h1, h2]⟩
    · by_cases h3 : ksynth + ((st.read sim_arr).length : ℚ) * kdecay < 0
      · exact ⟨.valueError, by simp [h1, h2, h3]⟩
      · exact ⟨.outOfDraws, by simp [h1, h2, h3]⟩
  · left
    exact ⟨h1, by rw [simLoopS]; simp [h1]⟩

/-- One unfolding of the store-level loop on a nonempty `taus` stream:
exit, error (with a store extending the incoming one), or recursion on a
store extending the catch-up's store, with the catch-up's record. -/
theorem simLoopS_cons_cases (ksynth kdecay t_final checkpoint_freq : ℚ)
    (tau : ℚ) (taus' us : List ℚ) (idxs : List ℕ) (st : Store)
    (sim_series : List (ℚ × ℕ)) (sim_arr : ℕ) (next_checkpt t : ℚ) :
    (¬ next_checkpt < t_final ∧
      simLoopS ksynth kdecay t_final checkpoint_freq (tau :: taus') us idxs st
        sim_series sim_arr next_checkpt t = .ok st sim_series)
    ∨ (∃ e stE, simLoopS ksynth kdecay t_final checkpoint_freq (tau :: taus') us
        idxs st sim_series sim_arr next_checkpt t = .err stE e
        ∧ ∃ ext, stE.cells = st.cells ++ ext)
    ∨ (∃ (us' : List ℚ) (idxs' : List ℕ) (st2 : Store) (a2 : ℕ),
        simLoopS ksynth kdecay t_final checkpoint_freq (tau :: taus') us idxs st
            sim_series sim_arr next_checkpt t
          = simLoopS ksynth kdecay t_final checkpoint_freq taus' us' idxs' st2
              (recUpdateGoS (updateFuel t tau next_checkpt checkpoint_freq) st
                sim_series sim_arr t tau next_checkpt checkpoint_freq).2.1
              a2
              (recUpdateGoS (updateFuel t tau next_checkpt checkpoint_freq) st
                sim_series sim_arr t tau next_checkpt checkpoint_freq).2.2
              (t + tau)
        ∧ ∃ ext, st2.cells
            = (recUpdateGoS (updateFuel t tau next_checkpt checkpoint_freq) st
                sim_series sim_arr t tau next_checkpt checkpoint_freq).1.cells
              ++ ext) := by
  set upd := recUpdateGoS (updateFuel t tau next_checkpt checkpoint_freq) st
    sim_series sim_arr t tau next_checkpt checkpoint_freq with hupd
  have hupdext : ∃ ext, upd.1.cells = st.cells ++ ext :=
    (recUpdateGoS_extends _ st sim_series sim_arr t tau next_checkpt
      checkpoint_freq).1
  by_cases h1 : next_checkpt < t_final
  · by_cases h2 : ksynth + ((st.read sim_arr).length : ℚ) * kdecay = 0
    · exact Or.inr (Or.inl ⟨.zeroDivisionError, st,
        by rw [simLoopS]; simp [h1, h2], ⟨[], by simp⟩⟩)
    · by_cases h3 : ksynth + ((st.read sim_arr).length : ℚ) * kdecay < 0
      · exact Or.inr (Or.inl ⟨.valueError, st,
          by rw [simLoopS]; simp [h1, h2, h3], ⟨[], by simp⟩⟩)
      · have haged : ∃ ext, (np_add_scalar upd.1 sim_arr tau).1.cells
            = st.cells ++ ext := by
          obtain ⟨ext, hext⟩ := hupdext
          exact ⟨ext ++ [(upd.1.read sim_arr).map (· + tau)],
            by simp [np_add_scalar, Store.alloc, hext]⟩
        by_cases h4 : ksynth / (ksynth + ((st.read sim_arr).length : ℚ) * kdecay) < 0
          ∨ 1 < ksynth / (ksynth + ((st.read sim_arr).length : ℚ) * kdecay)
        · refine Or.inr (Or.inl ⟨.valueError, (np_add_scalar upd.1 sim_arr tau).1,
            ?_, haged⟩)
          rw [simLoopS]
          simp [h1, h2, h3, h4, hupd]
        · match us with
          | [] =>
            refine Or.inr (Or.inl ⟨.outOfDraws, (np_add_scalar upd.1 sim_arr tau).1,
              ?_, haged⟩)
            rw [simLoopS]
            simp [h1, h2, h3, h4, hupd]
          | u :: us' =>
            by_cases h5 : u < ksynth / (ksynth + ((st.read sim_arr).length : ℚ) * kdecay)
            · refine Or.inr (Or.inr ⟨us', idxs,
                (np_append0 (np_add_scalar upd.1 sim_arr tau).1
                  (np_add_scalar upd.1 sim_arr tau).2).1,
                (np_append0 (np_add_scalar upd.1 sim_arr tau).1
                  (np_add_scalar upd.1 sim_arr tau).2).2, ?_, ?_⟩)
              · rw [simLoopS]
                simp [h1, h2, h3, h4, h5, hupd]
              · refine ⟨[(upd.1.read sim_arr).map (· + tau),
                  ((np_add_scalar upd.1 sim_arr tau).1.read
                    (np_add_scalar upd.1 sim_arr tau).2) ++ [0]], ?_⟩
                simp [np_append0, np_add_scalar, Store.alloc]
            · by_cases h6 : ((np_add_scalar upd.1 sim_arr tau).1.read
                  (np_add_scalar upd.1 sim_arr tau).2).length = 0
              · refine Or.inr (Or.inl ⟨.valueError,
                  (np_add_scalar upd.1 sim_arr tau).1, ?_, haged⟩)
                rw [simLoopS]
                simp [h1, h2, h3, h4, h5, h6, hupd]
              · match idxs with
                | [] =>
                  refine Or.inr (Or.inl ⟨.outOfDraws,
                    (np_add_scalar upd.1 sim_arr tau).1, ?_, haged⟩)
                  rw [simLoopS]
                  simp [h1, h2, h3, h4, h5, h6, hupd]
                | i :: idxs' =>
                  refine Or.inr (Or.inr ⟨us', idxs',
                    (np_delete (np_add_scalar upd.1 sim_arr tau).1
                      (np_add_scalar upd.1 sim_arr tau).2
                      (i % ((np_add_scalar upd.1 sim_arr tau).1.read
                        (np_add_scalar upd.1 sim_arr tau).2).length)).1,
                    (np_delete (np_add_scalar upd.1 sim_arr tau).1
                      (np_add_scalar upd.1 sim_arr tau).2
                      (i % ((np_add_scalar upd.1 sim_arr tau).1.read
                        (np_add_scalar upd.1 sim_arr tau).2).length)).2, ?_, ?_⟩)
                  · rw [simLoopS]
                    simp [h1, h2, h3, h4, h5, h6, hupd]
                  · refine ⟨[(upd.1.read sim_arr).map (· + tau),
                      ((np_add_scalar upd.1 sim_arr tau).1.read
                        (np_add_scalar upd.1 sim_arr tau).2).take
                        (i % ((np_add_scalar upd.1 sim_arr tau).1.read
                          (np_add_scalar upd.1 sim_arr tau).2).length)
                      ++ ((np_add_scalar upd.1 sim_arr tau).1.read
                        (np_add_scalar upd.1 sim_arr tau).2).drop
                        (i % ((np_add_scalar upd.1 sim_arr tau).1.read
                          (np_add_scalar upd.1 sim_arr tau).2).length + 1)], ?_⟩
                    simp [np_delete, np_add_scalar, Store.alloc]
  · left
    exact ⟨h1, by rw [simLoopS]; simp [h1]⟩

/-- The store-level loop never writes an existing cell (its final store —
whether it completed or raised — extends the incoming store cell for
cell), and a completed run only appends to the record. -/
theorem simLoopS_extends (ksynth kdecay t_final checkpoint_freq : ℚ)
    (taus : List ℚ) :
    ∀ (us : List ℚ) (idxs : List ℕ) (st : Store) (sim_series : List (ℚ × ℕ))
      (sim_arr : ℕ) (next_checkpt t : ℚ),
      (∃ ext, ((simLoopS ksynth kdecay t_final checkpoint_freq taus us idxs st
          sim_series sim_arr next_checkpt t).store).cells = st.cells ++ ext)
      ∧ (∀ st' rec, simLoopS ksynth kdecay t_final checkpoint_freq taus us idxs
          st sim_series sim_arr next_checkpt t = .ok st' rec →
          ∃ es, rec = sim_series ++ es) := by
  induction taus with
  | nil =>
    intro us idxs st s a nc t
    rcases simLoopS_nil ksynth kdecay t_final checkpoint_freq us idxs st s a
      nc t with ⟨_, heq⟩ | ⟨e, heq⟩
    · rw [heq]
      exact ⟨⟨[], by simp [SResultS.store]⟩,
        fun st' rec h => ⟨[], by simpa using ((SResultS.ok.injEq _ _ _ _ ▸ h)).2.symm⟩⟩
    · rw [heq]
      refine ⟨⟨[], by simp [SResultS.store]⟩, fun st' rec h => absurd h (by simp)⟩
  | cons tau taus' ih =>
    intro us idxs st s a nc t
    rcases simLoopS_cons_cases ksynth kdecay t_final checkpoint_freq tau taus' us
      idxs st s a nc t with ⟨_, heq⟩ | ⟨e, stE, heq, hext⟩ | ⟨us', idxs', st2, a2, heq, hext⟩
    · rw [heq]
      exact ⟨⟨[], by simp [SResultS.store]⟩,
        fun st' rec h => ⟨[], by simpa using ((SResultS.ok.injEq _ _ _ _ ▸ h)).2.symm⟩⟩
    · rw [heq]
      exact ⟨by simpa [SResultS.store] using hext,
        fun st' rec h => absurd h (by simp)⟩
    · rw [heq]
      obtain ⟨⟨ext2, hext2⟩, hrec⟩ := ih us' idxs' st2
        (recUpdateGoS (updateFuel t tau nc checkpoint_freq) st s a t tau nc
          checkpoint_freq).2.1 a2
        (recUpdateGoS (updateFuel t tau nc checkpoint_freq) st s a t tau nc
          checkpoint_freq).2.2 (t + tau)
      obtain ⟨⟨ext0, hext0⟩, ⟨es0, hes0⟩⟩ :=
        recUpdateGoS_extends (updateFuel t tau nc checkpoint_freq) st s a t tau
          nc checkpoint_freq
      obtain ⟨ext1, hext1⟩ := hext
      constructor
      · exact ⟨ext0 ++ ext1 ++ ext2, by
          rw [hext2, hext1, hext0]; simp [List.append_assoc]⟩
      · intro st' rec h
        obtain ⟨es, hes⟩ := hrec st' rec h
        exact ⟨es0 ++ es, by rw [hes, hes0]; simp [List.append_assoc]⟩

/-! ### Claim theorems -/

/-- C1, counterexample: with `t_final = 2` and `checkpoint_freq = 1`, a
single event with `tau = 5` makes the run record checkpoints at times
0, 1, 2, 3 and 4 — five entries instead of the two multiples of
`checkpoint_freq` in `[0, 2)`, and entries at times `2, 3, 4 ≥ t_final`
(the emission recursion of lines 87-92 never tests `t_final`). -/
theorem C1_counterexample :
    one_state_simulation 1 1 [] 2 1 [5] [0] []
        = Except.ok [(0, []), (1, []), (2, []), (3, []), (4, [])]
      ∧ ¬ ((4 : ℚ) < 2) :=
  ⟨by with_unfolding_all rfl, by norm_num⟩

/-- C1 (amended): for every completed run with `checkpoint_freq > 0`, the
checkpoint times are exactly the first `m` multiples of `checkpoint_freq`
(starting at 0) for some `m` with `t_final ≤ m * checkpoint_freq`; hence
every multiple of `checkpoint_freq` in `[0, t_final)` is recorded exactly
once, but entries at times `≥ t_final` may also be present. -/
theorem C1_checkpoint_times (ksynth kdecay t_final checkpoint_freq : ℚ)
    (sim_arr : List ℚ) (taus us : List ℚ) (idxs : List ℕ)
    (out : List (ℚ × List ℚ)) (hf : 0 < checkpoint_freq)
    (hok : one_state_simulation ksynth kdecay sim_arr t_final checkpoint_freq
        taus us idxs = .ok out) :
    ∃ m : ℕ, out.map Prod.fst
        = (List.range m).map (fun i : ℕ => (i : ℚ) * checkpoint_freq)
      ∧ t_final ≤ (m : ℚ) * checkpoint_freq
      ∧ ∀ i : ℕ, (i : ℚ) * checkpoint_freq < t_final →
          (out.map Prod.fst).count ((i : ℚ) * checkpoint_freq) = 1 := by
  rw [one_state_simulation] at hok
  obtain ⟨m, _, hm1, hm2⟩ := simLoop_times_inv ksynth kdecay t_final
    checkpoint_freq taus us idxs [(0, sim_arr)] sim_arr checkpoint_freq 0 1 out
    (by rw [List.range_succ]; simp) (by simp) hok
  refine ⟨m, hm1, hm2, ?_⟩
  intro i hi
  have hginj : Function.Injective (fun i : ℕ => (i : ℚ) * checkpoint_freq) := by
    intro a b hab
    have : (a : ℚ) = (b : ℚ) := mul_right_cancel₀ (ne_of_gt hf) hab
    exact_mod_cast this
  have him : i < m := by
    have hlt : (i : ℚ) * checkpoint_freq < (m : ℚ) * checkpoint_freq :=
      lt_of_lt_of_le hi hm2
    have hcast : (i : ℚ) < (m : ℚ) := lt_of_mul_lt_mul_right hlt (le_of_lt hf)
    exact_mod_cast hcast
  rw [hm1, List.count_map_of_injective _ _ hginj]
  exact List.count_eq_one_of_mem (List.nodup_range m) (List.mem_range.mpr him)

/-- C1 (witness): the amended statement holds on the counterexample run. -/
theorem C1_checkpoint_times_witness :
    ∃ m : ℕ, ([(0, []), (1, []), (2, []), (3, []), (4, [])]
          : List (ℚ × List ℚ)).map Prod.fst
        = (List.range m).map (fun i : ℕ => (i : ℚ) * 1)
      ∧ (2 : ℚ) ≤ (m : ℚ) * 1
      ∧ ∀ i : ℕ, (i : ℚ) * 1 < 2 →
          (([(0, []), (1, []), (2, []), (3, []), (4, [])]
            : List (ℚ × List ℚ)).map Prod.fst).count ((i : ℚ) * 1) = 1 :=
  C1_checkpoint_times 1 1 2 1 [] [5] [0] [] _ (by norm_num)
    (by with_unfolding_all rfl)

/-- C2, counterexample: with `ksynth = 0` and an empty initial state, the
total event rate is zero and the run raises `ZeroDivisionError` at
line 60 (`1/(ksynth + decay_prob)`); it does not emit the remaining
checkpoints before `t_final` with the frozen empty state. -/
theorem C2_counterexample :
    one_state_simulation 0 1 [] 2 1 [] [] []
      = Except.error SimError.zeroDivisionError := by
  with_unfolding_all rfl

/-- C2 (amended): whenever the loop is entered (the next checkpoint target
is below `t_final`) with an empty state and `ksynth = 0`, the code raises
`ZeroDivisionError` computing `1/(ksynth + decay_prob)` on line 60; no
result — in particular no further checkpoint — is returned. -/
theorem C2_zero_rate_raises (ksynth kdecay t_final checkpoint_freq : ℚ)
    (taus us : List ℚ) (idxs : List ℕ) (sim_series : List (ℚ × List ℚ))
    (next_checkpt t : ℚ) (hks : ksynth = 0)
    (hnc : next_checkpt < t_final) :
    simLoop ksynth kdecay t_final checkpoint_freq taus us idxs sim_series []
        next_checkpt t = .error .zeroDivisionError := by
  subst hks
  rw [simLoop]
  simp [hnc]

/-- C2 (witness): the amended statement at a concrete loop state. -/
theorem C2_zero_rate_raises_witness :
    simLoop 0 1 2 1 [] [] [] [((0 : ℚ), ([] : List ℚ))] [] 1 0
      = .error .zeroDivisionError :=
  C2_zero_rate_raises 0 1 2 1 [] [] [] [(0, [])] 1 0 rfl (by norm_num)

/-- C3, counterexample: `t_final = -1` is invalid (non-positive), yet the
call returns a normal result (the lone `t = 0` checkpoint) instead of
failing with a descriptive error: lines 7-58 perform no parameter
validation. -/
theorem C3_counterexample :
    one_state_simulation 1 1 [] (-1) 1 [] [] [] = Except.ok [(0, [])]
      ∧ ¬ ((0 : ℚ) < -1) :=
  ⟨by with_unfolding_all rfl, by norm_num⟩

/-- C3 (amended): the code performs no parameter validation.  Whatever the
parameters — valid or not — a call with `t_final ≤ checkpoint_freq`
(including every non-positive `t_final`) skips the loop entirely and
returns the `t = 0`-only record without raising. -/
theorem C3_no_validation (ksynth kdecay : ℚ) (sim_arr : List ℚ)
    (t_final checkpoint_freq : ℚ) (taus us : List ℚ) (idxs : List ℕ)
    (h : t_final ≤ checkpoint_freq) :
    one_state_simulation ksynth kdecay sim_arr t_final checkpoint_freq taus us
      idxs = .ok [(0, sim_arr)] := by
  rw [one_state_simulation, simLoop]
  simp [not_lt.mpr h]

/-- C3 (witness): a call with the invalid `t_final = 0` returns normally. -/
theorem C3_no_validation_witness :
    one_state_simulation 1 1 [] 0 1 [] [] [] = .ok [(0, [])] :=
  C3_no_validation 1 1 [] 0 1 [] [] [] (by norm_num)

/-- C4: the default initial state `np.empty(shape=(1,))` (line 8) is a
length-1 array holding one uninitialized value, not an empty array: the
`t = 0` snapshot of a run using the default has size 1, and the first
entry of `ct_checkpoints` is 1, not 0 — contradicting the docstring's
"empty vessel" (lines 22-24) and the spec. -/
theorem C4_default_not_empty (g : ℚ) :
    one_state_simulation 1 1 (default_sim_arr g) 1 1 [] [] []
        = .ok [(0, default_sim_arr g)]
      ∧ ct_checkpoints [(0, default_sim_arr g)] = [1]
      ∧ (default_sim_arr g).length ≠ 0 := by
  refine ⟨?_, by simp [ct_checkpoints, default_sim_arr], by simp [default_sim_arr]⟩
  rw [one_state_simulation, simLoop]
  simp

/-- C5: `counts[i]` is the length of snapshot `i`, `mean_ages[i]` is
`np.mean` of snapshot `i`, which is the arithmetic mean `sum/length` of
the ages and is NaN (`none`) exactly when the snapshot is empty — no
exception is raised for an empty snapshot (lines 77-78). -/
theorem C5_summaries (sim_series : List (ℚ × List ℚ)) (i : ℕ) (ti : ℚ)
    (snap : List ℚ) (h : sim_series[i]? = some (ti, snap)) :
    (ct_checkpoints sim_series)[i]? = some snap.length
    ∧ (age_checkpoints sim_series)[i]? = some (npMean snap)
    ∧ ((npMean snap).isNone ↔ snap = [])
    ∧ (snap ≠ [] → npMean snap = some (snap.sum / (snap.length : ℚ))) := by
  refine ⟨?_, ?_, ?_, ?_⟩
  · simp [ct_checkpoints, List.getElem?_map, h]
  · simp [age_checkpoints, List.getElem?_map, h]
  · rw [npMean]
    split_ifs with hlen
    · simp [List.length_eq_zero.mp hlen]
    · rw [List.length_eq_zero] at hlen
      simp [hlen]
  · intro hne
    rw [npMean, if_neg (fun hlen => hne (List.length_eq_zero.mp hlen))]

/-- C5 (witness): the summary facts at a concrete record. -/
theorem C5_summaries_witness :
    (ct_checkpoints [((0 : ℚ), [(1 : ℚ), 2])])[0]? = some [(1 : ℚ), 2].length
    ∧ (age_checkpoints [((0 : ℚ), [(1 : ℚ), 2])])[0]?
        = some (npMean [(1 : ℚ), 2])
    ∧ ((npMean [(1 : ℚ), 2]).isNone ↔ [(1 : ℚ), 2] = [])
    ∧ ([(1 : ℚ), 2] ≠ [] →
        npMean [(1 : ℚ), 2]
          = some ([(1 : ℚ), 2].sum / (([(1 : ℚ), 2].length : ℕ) : ℚ))) :=
  C5_summaries [((0 : ℚ), [(1 : ℚ), 2])] 0 0 [(1 : ℚ), 2] rfl

/-- C6: every checkpoint entry appended during the catch-up recursion of a
single event (lines 85-93) carries a snapshot equal, element for element,
to the same pre-event, pre-aging state `sim_arr` that was current when
the event time was drawn — in particular when `tau` crosses two or more
checkpoint boundaries, all the intermediate checkpoints are identical. -/
theorem C6_catchup_snapshots (sim_series : List (ℚ × List ℚ))
    (sim_arr : List ℚ) (t tau next_checkpt checkpoint_freq : ℚ)
    (e : ℚ × List ℚ)
    (he : e ∈ (_recursive_update_output sim_series sim_arr t tau next_checkpt
        checkpoint_freq).1.drop sim_series.length) :
    e.2 = sim_arr := by
  obtain ⟨k, hk⟩ := update_output_spec sim_series sim_arr t tau next_checkpt
    checkpoint_freq
  rw [hk] at he
  simp only [List.drop_left] at he
  obtain ⟨i, _, hei⟩ := List.mem_map.mp he
  rw [← hei]

/-- C6 (witness): with `tau = 3` crossing the checkpoints at 1 and 2, each
recorded entry carries the pre-event snapshot `[7]`. -/
theorem C6_catchup_snapshots_witness : ((2 : ℚ), [(7 : ℚ)]).2 = [7] :=
  C6_catchup_snapshots [] [7] 0 3 1 1 (2, [7])
    (by with_unfolding_all decide)

/-- C7: in every completed run with `checkpoint_freq > 0`, the record
starts with the unconditional `t = 0` snapshot of the initial state
(line 55) and the checkpoint times strictly increase in steps of exactly
`checkpoint_freq`. -/
theorem C7_times_arithmetic (ksynth kdecay t_final checkpoint_freq : ℚ)
    (sim_arr : List ℚ) (taus us : List ℚ) (idxs : List ℕ)
    (out : List (ℚ × List ℚ)) (hf : 0 < checkpoint_freq)
    (hok : one_state_simulation ksynth kdecay sim_arr t_final checkpoint_freq
        taus us idxs = .ok out) :
    out.head? = some (0, sim_arr)
    ∧ (out.map Prod.fst).Chain'
        (fun a b => a < b ∧ b = a + checkpoint_freq) := by
  rw [one_state_simulation] at hok
  constructor
  · obtain ⟨ext, hext⟩ := simLoop_record_extends ksynth kdecay t_final
      checkpoint_freq taus us idxs [(0, sim_arr)] sim_arr checkpoint_freq 0
      out hok
    rw [hext]
    rfl
  · obtain ⟨m, _, hm1, _⟩ := simLoop_times_inv ksynth kdecay t_final
      checkpoint_freq taus us idxs [(0, sim_arr)] sim_arr checkpoint_freq 0 1
      out (by rw [List.range_succ]; simp) (by simp) hok
    rw [hm1, List.chain'_map]
    match m with
    | 0 => simp
    | m + 1 =>
      rw [List.chain'_range_succ]
      intro i _
      constructor
      · have : (i : ℚ) < ((i + 1 : ℕ) : ℚ) := by push_cast; linarith
        exact mul_lt_mul_of_pos_right this hf
      · push_cast
        ring

/-- C7 (witness): the time sequence of a concrete completed run. -/
theorem C7_times_arithmetic_witness :
    (([(0, []), (1, []), (2, []), (3, []), (4, [])]
        : List (ℚ × List ℚ)).head? = some (0, []))
    ∧ (([(0, []), (1, []), (2, []), (3, []), (4, [])]
        : List (ℚ × List ℚ)).map Prod.fst).Chain'
        (fun a b => a < b ∧ b = a + 1) :=
  C7_times_arithmetic 1 1 2 1 [] [5] [0] [] _ (by norm_num)
    (by with_unfolding_all rfl)

/-- C9: at any loop iteration reached with an empty state and
`ksynth > 0`, the birth probability `ksynth/(ksynth + 0)` equals 1, so the
binomial draw selects a birth for every uniform value `u ∈ [0, 1)`: the
death branch — whose `np.random.randint(0, 0)` would raise on the empty
array — is unreachable, and the loop continues with the single new
molecule of age 0. -/
theorem C9_empty_state_births (ksynth kdecay t_final checkpoint_freq : ℚ)
    (tau u : ℚ) (taus' us' : List ℚ) (idxs : List ℕ)
    (sim_series : List (ℚ × List ℚ)) (next_checkpt t : ℚ)
    (hks : 0 < ksynth) (_hu0 : 0 ≤ u) (hu1 : u < 1)
    (hnc : next_checkpt < t_final) :
    simLoop ksynth kdecay t_final checkpoint_freq (tau :: taus') (u :: us')
        idxs sim_series [] next_checkpt t
      = simLoop ksynth kdecay t_final checkpoint_freq taus' us' idxs
          (_recursive_update_output sim_series [] t tau next_checkpt
            checkpoint_freq).1
          [0]
          (_recursive_update_output sim_series [] t tau next_checkpt
            checkpoint_freq).2
          (t + tau) := by
  rw [simLoop]
  have hp : ksynth / (ksynth + (([] : List ℚ).length : ℚ) * kdecay) = 1 := by
    simp [div_self (ne_of_gt hks)]
  simp only [List.length_nil, Nat.cast_zero, zero_mul, add_zero] at hp ⊢
  rw [if_pos hnc, if_neg (by simpa using ne_of_gt hks),
    if_neg (not_lt.mpr (le_of_lt hks))]
  rw [hp]
  rw [if_neg (by norm_num), if_pos hu1]
  simp [npAppend, ageAll]

/-- C9 (witness): the birth step at a concrete empty-state iteration. -/
theorem C9_empty_state_births_witness :
    simLoop 1 1 2 1 [5] [(0 : ℚ)] [] [((0 : ℚ), ([] : List ℚ))] [] 1 0
      = simLoop 1 1 2 1 [] [] []
          (_recursive_update_output [((0 : ℚ), ([] : List ℚ))] [] 0 5 1 1).1
          [0]
          (_recursive_update_output [((0 : ℚ), ([] : List ℚ))] [] 0 5 1 1).2
          (0 + 5) :=
  C9_empty_state_births 1 1 2 1 5 0 [] [] [] [(0, [])] 1 0 (by norm_num)
    (by norm_num) (by norm_num) (by norm_num)

/-- C8: every snapshot is recorded as a `np.copy` into a fresh cell
(line 55 and line 88), and no operation of the run writes an existing
cell, so once an entry is in the record no subsequent aging, birth append
or death removal changes it: dereferencing the already-recorded entries in
the final store of any completed remainder of the run gives exactly the
values they had when recorded. -/
theorem C8_snapshots_immutable (ksynth kdecay t_final checkpoint_freq : ℚ)
    (taus us : List ℚ) (idxs : List ℕ) (st : Store)
    (sim_series : List (ℚ × ℕ)) (sim_arr : ℕ) (next_checkpt t : ℚ)
    (st' : Store) (rec : List (ℚ × ℕ))
    (hvalid : ∀ p ∈ sim_series, p.2 < st.cells.length)
    (hok : simLoopS ksynth kdecay t_final checkpoint_freq taus us idxs st
        sim_series sim_arr next_checkpt t = .ok st' rec) :
    (∃ ext, rec = sim_series ++ ext)
    ∧ snapshotsOf st' sim_series = snapshotsOf st sim_series := by
  obtain ⟨hstore, hrec⟩ := simLoopS_extends ksynth kdecay t_final
    checkpoint_freq taus us idxs st sim_series sim_arr next_checkpt t
  refine ⟨hrec st' rec hok, ?_⟩
  rw [hok] at hstore
  unfold snapshotsOf
  apply List.map_congr_left
  intro p hp
  rw [read_of_cells_extends st st' p.2 (hvalid p hp)
    (by simpa [SResultS.store] using hstore)]

/-- C8 (witness): on a concrete run whose later events age the state and
append a birth, the entry recorded at `t = 0` still dereferences to the
empty snapshot in the final store. -/
theorem C8_snapshots_immutable_witness :
    (∃ ext, ([((0 : ℚ), 0), (1, 1), (2, 2), (3, 3), (4, 4)] : List (ℚ × ℕ))
        = [((0 : ℚ), 0)] ++ ext)
    ∧ snapshotsOf ⟨[[], [], [], [], [], [], [0]]⟩ [((0 : ℚ), 0)]
        = snapshotsOf ⟨[[]]⟩ [((0 : ℚ), 0)] :=
  C8_snapshots_immutable 1 1 2 1 [5] [0] [] ⟨[[]]⟩ [((0 : ℚ), 0)] 0 1 0
    ⟨[[], [], [], [], [], [], [0]]⟩
    [((0 : ℚ), 0), (1, 1), (2, 2), (3, 3), (4, 4)]
    (by decide) (by with_unfolding_all rfl)

/-- C10: a run never mutates the caller-supplied initial-state array.  The
`t = 0` snapshot is taken from a `np.copy` (line 55) and every update on
lines 66-75 allocates a fresh array, so in the final store — whether the
run completed or raised — the caller's cell still holds its original
contents, length and elements alike. -/
theorem C10_input_never_mutated (ksynth kdecay : ℚ) (st0 : Store) (a0 : ℕ)
    (t_final checkpoint_freq : ℚ) (taus us : List ℚ) (idxs : List ℕ)
    (ha : a0 < st0.cells.length) :
    ((one_state_simulationS ksynth kdecay st0 a0 t_final checkpoint_freq taus
        us idxs).store).read a0 = st0.read a0 := by
  obtain ⟨hstore, _⟩ := simLoopS_extends ksynth kdecay t_final checkpoint_freq
    taus us idxs (np_copy st0 a0).1 [(0, (np_copy st0 a0).2)] a0
    checkpoint_freq 0
  obtain ⟨ext, hext⟩ := hstore
  apply read_of_cells_extends st0 _ a0 ha
  refine ⟨st0.read a0 :: ext, ?_⟩
  rw [one_state_simulationS, hext]
  simp [np_copy, Store.alloc]

/-- C10 (witness): the caller's array `[3]` is unchanged by a concrete run
that ages the state and appends a birth. -/
theorem C10_input_never_mutated_witness :
    ((one_state_simulationS 1 1 ⟨[[3]]⟩ 0 2 1 [5] [0] []).store).read 0
      = (Store.mk [[3]]).read 0 :=
  C10_input_never_mutated 1 1 ⟨[[3]]⟩ 0 2 1 [5] [0] [] (by decide)
